import Mathlib

/-!
Shallow embedding of `src/slack_export.py`, a Slack history exporter:
the `Client` fetchers (`fetch_users`, `fetch_channels`, `fetch_messages`,
`fetch_replies`) and the `main` export orchestrator, with proofs about
pagination, thread flattening, channel-name resolution, serialization
and the failure behaviour of a run.

The remote API is modelled as a function from the optional `cursor`
request parameter to the JSON page the server answers with; the network
requests a fetcher issues are recorded as the list of cursor parameters
it sent.  The `while True:` loops of the Python source are modelled with
an explicit fuel argument: a `none` result means the loop did not finish
within `fuel` iterations.
-/

namespace SlackExport

/-- A JSON scalar value: message, user and channel fields are passed
through the exporter unchanged, so only strings matter to control flow. -/
inductive JVal where
  | str (s : String)
  | num (n : Int)
  | bool (b : Bool)
  | null
deriving DecidableEq, Repr

/-- A Slack message, as the dict the API returns it: the `ts` and
`thread_ts` fields drive the control flow of the exporter; every other
field is carried opaquely in `extra`. -/
structure Message where
  ts : String
  thread_ts : Option String := none
  extra : List (String × JVal) := []
deriving DecidableEq, Repr

/-- Python truthiness of an optional string (`None` and `""` are falsy),
as tested by `channel.get("name") or ...`, `if not thread_ts:` and
`if next_cursor:` in the source. -/
def truthy : Option String → Option String
  | none => none
  | some s => if s = "" then none else some s

/-- One JSON response of a paginated message endpoint: the `messages`
list, the `has_more` flag, and `response_metadata.next_cursor`. -/
structure Page where
  messages : List Message
  has_more : Bool
  next_cursor : String := ""
deriving DecidableEq, Repr

/-- A paginated endpoint of the remote API, as a function from the
`cursor` query parameter of the request (absent on the first call) to
the page the server answers with. -/
abbrev Server := Option String → Page

/-- The loop body of `Client.fetch_messages`, one iteration per unit of
fuel.  `msgs` is the accumulator, `next_cursor` the Python variable of
the same name, `trace` the cursor parameters of the requests issued so
far.  Returns `(some messages, trace)` when the loop breaks and
`(none, trace)` when the fuel runs out first. -/
def fetchMessagesLoop (server : Server) :
    Nat → List Message → Option String → List (Option String) →
    Option (List Message) × List (Option String)
  | 0, _, _, trace => (none, trace)
  | fuel + 1, msgs, next_cursor, trace =>
    let req := truthy next_cursor
    let response := server req
    let msgs2 := msgs ++ response.messages
    let trace2 := trace ++ [req]
    if response.has_more then
      fetchMessagesLoop server fuel msgs2 (some response.next_cursor) trace2
    else
      (some msgs2, trace2)

/-- `Client.fetch_messages(channel_id)`: paginate the
`conversations.history` endpoint, appending each response member
`messages`, until a response declares `has_more` false. -/
def fetch_messages (server : Server) (fuel : Nat) :
    Option (List Message) × List (Option String) :=
  fetchMessagesLoop server fuel [] none []

/-- The inner `for message in response["messages"]` walk of
`Client.fetch_replies`: append each message to `replies`, but stop
(`done = True`) at a message whose `ts` equals the thread root timestamp
once at least one element has already been collected. -/
def repliesScan (thread_ts : String) :
    List Message → List Message → List Message × Bool
  | replies, [] => (replies, false)
  | replies, message :: rest =>
    if message.ts = thread_ts ∧ replies.length > 0 then
      (replies, true)
    else
      repliesScan thread_ts (replies ++ [message]) rest

/-- The loop body of `Client.fetch_replies`, one iteration per unit of
fuel.  Faithful to the source: when a page neither hits the duplicate
boundary (`done`) nor declares `has_more`, the loop body neither breaks
nor advances the cursor, so the same request is issued again. -/
def fetchRepliesLoop (server : Server) (thread_ts : String) :
    Nat → List Message → Option String → List (Option String) →
    Option (List Message) × List (Option String)
  | 0, _, _, trace => (none, trace)
  | fuel + 1, replies, next_cursor, trace =>
    let req := truthy next_cursor
    let response := server req
    let trace2 := trace ++ [req]
    let scanned := repliesScan thread_ts replies response.messages
    if scanned.2 then
      (some scanned.1, trace2)
    else if response.has_more then
      fetchRepliesLoop server thread_ts fuel scanned.1 (some response.next_cursor) trace2
    else
      fetchRepliesLoop server thread_ts fuel scanned.1 next_cursor trace2

/-- `Client.fetch_replies(channel_id, thread_ts)`: paginate the
`conversations.replies` endpoint with the duplicate-boundary rule. -/
def fetch_replies (server : Server) (thread_ts : String) (fuel : Nat) :
    Option (List Message) × List (Option String) :=
  fetchRepliesLoop server thread_ts fuel [] none []

/-- `Serves server c ps` states that, starting from cursor state `c`,
the server answers the request chain of the pagination loop with exactly
the pages `ps`: every page but the last declares `has_more` with a
nonempty continuation cursor, and the last declares `has_more` false. -/
inductive Serves (server : Server) : Option String → List Page → Prop
  | last (c : Option String) (p : Page) :
      server (truthy c) = p → p.has_more = false → Serves server c [p]
  | more (c : Option String) (p : Page) (ps : List Page) :
      server (truthy c) = p → p.has_more = true → p.next_cursor ≠ "" →
      Serves server (some p.next_cursor) ps → Serves server c (p :: ps)

/-- A Slack user, as the dict the API returns it: `id` and `name` are
the fields the exporter reads; the rest is carried in `extra`. -/
structure User where
  id : String
  name : String
  extra : List (String × JVal) := []
deriving DecidableEq, Repr

/-- A Slack channel record: `id` is always read; `name` is present for
named channels, `user` holds the counterpart user id of a direct-message
channel. -/
structure Channel where
  id : String
  name : Option String := none
  user : Option String := none
  extra : List (String × JVal) := []
deriving DecidableEq, Repr

/-- One JSON response of the `users.list` endpoint: the `members` list
plus the pagination fields the endpoint also carries (which the source
never reads). -/
structure UsersResponse where
  members : List User
  has_more : Bool := false
  next_cursor : String := ""
deriving DecidableEq, Repr

/-- `Client.fetch_users`: a single `users.list` request with no `cursor`
parameter and no pagination loop, returning the `members` field of that
one response.  The second component is the request trace. -/
def fetch_users (server : Option String → UsersResponse) :
    List User × List (Option String) :=
  ((server none).members, [none])

/-- The `users` dict of `main`,
`{user["id"]: user for user in client.fetch_users()}`: on duplicate ids
the later member overwrites the earlier one. -/
def usersDict (members : List User) : String → Option User :=
  fun key => members.reverse.find? (fun u => u.id == key)

/-- The errors that can abort a run. -/
inductive Err where
  | fileExists
  | keyError
  | fuelOut
deriving DecidableEq, Repr

/-- Channel display-name resolution,
`channel.get("name") or users[channel.get("user")]["name"]`: the
channel member `name` when truthy, otherwise the name of the user the
dict holds at the channel member `user`; the dict subscript raises
`KeyError` when that key is absent (including the case where
`channel.get("user")` is `None`). -/
def resolveName (users : String → Option User) (channel : Channel) :
    Except Err String :=
  match truthy channel.name with
  | some n => Except.ok n
  | none =>
    match channel.user with
    | none => Except.error Err.keyError
    | some uid =>
      match users uid with
      | none => Except.error Err.keyError
      | some u => Except.ok u.name

/-- The key ordering `json.dump(..., sort_keys=True)` sorts object
items by. -/
def itemLE (a b : String × JVal) : Prop := a.1 ≤ b.1

instance : DecidableRel itemLE :=
  fun a b => inferInstanceAs (Decidable (a.1 ≤ b.1))

instance : IsTotal (String × JVal) itemLE :=
  ⟨fun a b => le_total a.1 b.1⟩

instance : IsTrans (String × JVal) itemLE :=
  ⟨fun _ _ _ h h2 => le_trans h h2⟩

/-- The strict variant of `itemLE`, used to compare sorted item lists. -/
def itemLT (a b : String × JVal) : Prop := a.1 < b.1

instance : IsAntisymm (String × JVal) itemLT :=
  ⟨fun _ _ h h2 => absurd h2 (lt_asymm h)⟩

/-- `sort_keys=True`: serialize object items in ascending key order. -/
def sortItems (o : List (String × JVal)) : List (String × JVal) :=
  o.insertionSort itemLE

/-- Rendering of a JSON scalar (`ensure_ascii=False`: characters are
kept literally). -/
def renderJVal : JVal → String
  | JVal.str s => "\"" ++ s ++ "\""
  | JVal.num n => toString n
  | JVal.bool b => if b then "true" else "false"
  | JVal.null => "null"

/-- One `"key": value` item of a serialized object. -/
def renderItem (p : String × JVal) : String :=
  "\"" ++ p.1 ++ "\": " ++ renderJVal p.2

/-- `json.dump(obj, f, ensure_ascii=False, sort_keys=True)` with the
default separators: the compact one-line object used in jsonl mode. -/
def dumpCompact (o : List (String × JVal)) : String :=
  "\x7b" ++ String.intercalate ", " ((sortItems o).map renderItem) ++ "\x7d"

/-- The same object with `indent=4`, its lines starting at indentation
`ind` inside the surrounding array. -/
def dumpPretty (ind : String) (o : List (String × JVal)) : String :=
  if (sortItems o).isEmpty then "\x7b\x7d"
  else
    "\x7b\n" ++
      String.intercalate ",\n"
        ((sortItems o).map (fun p => ind ++ "    " ++ renderItem p)) ++
      "\n" ++ ind ++ "\x7d"

/-- The JSON object a `Message` stands for: the `ts` field, the
`thread_ts` field when present, and the passthrough fields. -/
def Message.items (m : Message) : List (String × JVal) :=
  ("ts", JVal.str m.ts) ::
    (match m.thread_ts with
      | some t => [("thread_ts", JVal.str t)]
      | none => []) ++ m.extra

/-- The file body written for one channel: `json` mode is one
pretty-printed 4-space-indented array, `jsonl` mode one compact object
per line each followed by a newline; any other format string writes
nothing (the source `if/elif` falls through). -/
def serializeFile (fmt : String) (msgs : List Message) : String :=
  if fmt = "json" then
    if msgs.isEmpty then "[]"
    else
      "[\n" ++
        String.intercalate ",\n"
          (msgs.map (fun m => "    " ++ dumpPretty "    " m.items)) ++
        "\n]"
  else if fmt = "jsonl" then
    String.join (msgs.map (fun m => dumpCompact m.items ++ "\n"))
  else ""

/-- The filesystem contents of the output directory: the sequence of
writes performed, in order. -/
abbrev Fs := List (String × String)

/-- Reading a path after a run: `open(path, "w")` truncates, so the last
write to a path is the final content of the file there. -/
def fsRead (fs : Fs) (path : String) : Option String :=
  (fs.reverse.find? (fun e => e.1 == path)).map (fun e => e.2)

/-- `f"{output_dir / channel_name}.{output_format}"`. -/
def outputPath (outDir name fmt : String) : String :=
  outDir ++ "/" ++ name ++ "." ++ fmt

/-- The environment a run of `main` operates against: whether the output
directory already exists, and one response function per API endpoint
(`history` and `replies` are keyed by the query parameters the source
sends: channel id, and for replies also the thread timestamp). -/
structure Env where
  dirExists : Bool
  users : Option String → UsersResponse
  channels : List Channel
  history : String → Server
  replies : String → String → Server

/-- The `for message in reversed(messages)` loop of `main`: a message
with no truthy `thread_ts` is appended to the accumulator directly, a
threaded one is replaced by the list `fetch_replies` returns for its
thread.  `fr t` runs the reply fetch for thread `t`, returning the
result and its request trace; `calls` counts the network requests
issued.  A `none` result propagates a reply fetch that ran out of
fuel. -/
def expandLoop (fr : String → Option (List Message) × List (Option String)) :
    List Message → List Message → Nat → Option (List Message) × Nat
  | acc, [], calls => (some acc, calls)
  | acc, message :: rest, calls =>
    match truthy message.thread_ts with
    | none => expandLoop fr (acc ++ [message]) rest calls
    | some t =>
      match fr t with
      | (none, rtrace) => (none, calls + rtrace.length)
      | (some replies, rtrace) =>
        expandLoop fr (acc ++ replies) rest (calls + rtrace.length)

/-- The `messages_and_replies` collection built for one channel: the
thread expansion of the reversed root-message list. -/
def messagesAndReplies
    (fr : String → Option (List Message) × List (Option String))
    (messages : List Message) : Option (List Message) × Nat :=
  expandLoop fr [] messages.reverse 0

/-- One iteration of the channel loop of `main`: resolve the display
name, fetch the root messages, expand threads, write the output file.
Returns the number of network requests made and either the updated
filesystem or the error that aborted the run. -/
def processChannel (env : Env) (users : String → Option User)
    (outDir fmt : String) (fuel : Nat) (fs : Fs) (channel : Channel) :
    Nat × Except Err Fs :=
  match resolveName users channel with
  | Except.error e => (0, Except.error e)
  | Except.ok name =>
    match fetch_messages (env.history channel.id) fuel with
    | (none, trace) => (trace.length, Except.error Err.fuelOut)
    | (some messages, trace) =>
      match messagesAndReplies
          (fun t => fetch_replies (env.replies channel.id t) t fuel) messages with
      | (none, calls) => (trace.length + calls, Except.error Err.fuelOut)
      | (some flat, calls) =>
        (trace.length + calls,
         Except.ok (fs ++ [(outputPath outDir name fmt, serializeFile fmt flat)]))

/-- The channel loop of `main` over a list of channels: threads the
filesystem through, sums the network requests, and stops at the first
error, returning the filesystem as it was at that moment. -/
def processChannels (env : Env) (users : String → Option User)
    (outDir fmt : String) (fuel : Nat) :
    Fs → List Channel → Fs × Nat × Except Err Unit
  | fs, [] => (fs, 0, Except.ok ())
  | fs, channel :: rest =>
    match processChannel env users outDir fmt fuel fs channel with
    | (n, Except.error e) => (fs, n, Except.error e)
    | (n, Except.ok fs2) =>
      match processChannels env users outDir fmt fuel fs2 rest with
      | (fs3, m, r) => (fs3, n + m, r)

/-- `main(token, output_dir, output_format)`: create the output
directory (fatal if it exists, before any network request), fetch users
into a dict and channels into a list (one request each), then run the
channel loop.  Returns the filesystem produced, the outcome, and the
total number of network requests issued. -/
def mainRun (env : Env) (outDir fmt : String) (fuel : Nat) :
    Fs × Except Err Unit × Nat :=
  if env.dirExists then ([], Except.error Err.fileExists, 0)
  else
    let members := (fetch_users env.users).1
    let users := usersDict members
    match processChannels env users outDir fmt fuel [] env.channels with
    | (fs, calls, r) => (fs, r, 2 + calls)

/-- A message with only a `ts` field. -/
def mkMsg (t : String) : Message := ⟨t, none, []⟩

/-- A message with a `ts` and a `thread_ts` field. -/
def mkThreadMsg (t th : String) : Message := ⟨t, some th, []⟩

/-- Concrete three-page `conversations.history` scenario: pages chained
by the cursors `"a"` and `"b"`. -/
def histPage1 : Page := ⟨[mkMsg "5.0", mkMsg "4.0"], true, "a"⟩

def histPage2 : Page := ⟨[mkMsg "3.0"], true, "b"⟩

def histPage3 : Page := ⟨[mkMsg "2.0", mkMsg "1.0"], false, ""⟩

def histServer : Server := fun c =>
  match c with
  | none => histPage1
  | some s => if s = "a" then histPage2 else histPage3

/-- A replies endpoint that always answers the same page, containing one
message that is not the thread root, and declaring `has_more` false. -/
def stuckRepliesServer : Server := fun _ => ⟨[mkMsg "2.0"], false, ""⟩

/-- Concrete duplicate-boundary scenario for thread root `"10.0"`: the
first page is `[root, r1, r2]` with `has_more` true and cursor `"c"`,
the second page starts with the root again. -/
def dupPage1 : Page := ⟨[mkMsg "10.0", mkMsg "10.1", mkMsg "10.2"], true, "c"⟩

def dupPage2 : Page := ⟨[mkMsg "10.0", mkMsg "10.2", mkMsg "10.3"], true, "d"⟩

def dupServer : Server := fun c =>
  match c with
  | none => dupPage1
  | some _ => dupPage2

/-- The user `U1 = alice`. -/
def aliceUser : User := ⟨"U1", "alice", []⟩

/-- A named channel. -/
def generalChannel : Channel := ⟨"C1", some "general", none, []⟩

/-- A channel whose `name` field is present but the empty string, with
counterpart user `U1`. -/
def emptyNameChannel : Channel := ⟨"C9", some "", some "U1", []⟩

/-- A direct-message channel with counterpart user `U1`. -/
def imChannel : Channel := ⟨"D1", none, some "U1", []⟩

/-- A direct-message channel whose counterpart user id is absent from
the user table. -/
def missingUserChannel : Channel := ⟨"D9", none, some "UX", []⟩

/-- A channel record with neither a name nor a counterpart user field:
`channel.get("user")` is `None` and `users[None]` raises `KeyError`. -/
def noUserChannel : Channel := ⟨"D0", none, none, []⟩

/-- A users endpoint answering one member and, counterfactually,
declaring that more pages exist. -/
def moreUsersServer : Option String → UsersResponse :=
  fun _ => ⟨[aliceUser], true, "u"⟩

/-- An environment whose output directory already exists. -/
def dirExistsEnv : Env :=
  ⟨true, fun _ => ⟨[], false, ""⟩, [], fun _ _ => ⟨[], false, ""⟩,
   fun _ _ _ => ⟨[], false, ""⟩⟩

/-- An environment with one good channel followed by a direct-message
channel whose counterpart user is missing: the run fails on the second
channel after writing the file of the first. -/
def failSecondEnv : Env :=
  ⟨false, fun _ => ⟨[aliceUser], false, ""⟩,
   [generalChannel, missingUserChannel],
   fun _ _ => ⟨[mkMsg "1.0"], false, ""⟩,
   fun _ _ _ => ⟨[], false, ""⟩⟩

/-- Two users with distinct ids but the same display name. -/
def bobUser1 : User := ⟨"U1", "bob", []⟩

def bobUser2 : User := ⟨"U2", "bob", []⟩

/-- The two direct-message channels of the name-collision scenario. -/
def collideCh1 : Channel := ⟨"D1", none, some "U1", []⟩

def collideCh2 : Channel := ⟨"D2", none, some "U2", []⟩

/-- An environment with two direct-message channels whose counterpart
users share the display name `bob`, and distinct message histories. -/
def collideEnv : Env :=
  ⟨false, fun _ => ⟨[bobUser1, bobUser2], false, ""⟩,
   [collideCh1, collideCh2],
   fun cid _ => if cid = "D1" then ⟨[mkMsg "1.0"], false, ""⟩
                else ⟨[mkMsg "2.0"], false, ""⟩,
   fun _ _ _ => ⟨[], false, ""⟩⟩

instance {ε α : Type} [DecidableEq ε] [DecidableEq α] :
    DecidableEq (Except ε α) := fun a b =>
  match a, b with
  | Except.ok x, Except.ok y =>
    if h : x = y then isTrue (by rw [h])
    else isFalse (fun hc => h (Except.ok.inj hc))
  | Except.error x, Except.error y =>
    if h : x = y then isTrue (by rw [h])
    else isFalse (fun hc => h (Except.error.inj hc))
  | Except.ok _, Except.error _ => isFalse (fun hc => Except.noConfusion hc)
  | Except.error _, Except.ok _ => isFalse (fun hc => Except.noConfusion hc)

/-- Two serializations of the same two-field object, differing only in
insertion order. -/
def objBA : List (String × JVal) := [("b", JVal.num 1), ("a", JVal.str "x")]

def objAB : List (String × JVal) := [("a", JVal.str "x"), ("b", JVal.num 1)]

theorem truthy_some {s : String} (h : s ≠ "") : truthy (some s) = some s := by
  simp [truthy, h]

theorem fetchMessagesLoop_serves (server : Server) {ps : List Page}
    {c : Option String} (h : Serves server c ps) :
    ∀ fuel, ps.length ≤ fuel →
    ∀ (msgs : List Message) (trace : List (Option String)),
    fetchMessagesLoop server fuel msgs c trace =
      (some (msgs ++ (ps.map Page.messages).flatten),
       trace ++ truthy c :: ps.dropLast.map (fun p => some p.next_cursor)) := by
  induction h with
  | last c p hs hm =>
    intro fuel hf msgs trace
    match fuel, hf with
    | fuel + 1, _ => simp [fetchMessagesLoop, hs, hm]
  | more c p ps hs hm hc hrest ih =>
    intro fuel hf msgs trace
    match fuel, hf with
    | fuel + 1, hf =>
      have hf2 : ps.length ≤ fuel := by
        have := List.length_cons p ps ▸ hf
        omega
      simp only [fetchMessagesLoop, hs, hm, if_true]
      rw [ih fuel hf2]
      cases ps with
      | nil => cases hrest
      | cons q qs =>
        simp [truthy_some hc, List.dropLast_cons₂]

/-- C3: for every N-page response sequence in which pages 1..N-1 declare
has_more true with continuation cursors and page N declares has_more
false, fetch_messages returns the concatenation of the message lists of
the pages in page order, having requested page 1 without a cursor and
each later page with the cursor taken from the next_cursor of the
previous response. -/
theorem fetch_messages_concatenates_pages (server : Server) (ps : List Page)
    (fuel : Nat) (h : Serves server none ps) (hf : ps.length ≤ fuel) :
    fetch_messages server fuel =
      (some (ps.map Page.messages).flatten,
       none :: ps.dropLast.map (fun p => some p.next_cursor)) := by
  have := fetchMessagesLoop_serves server h fuel hf [] []
  simpa [fetch_messages, truthy] using this

theorem fetch_messages_concatenates_pages_witness :
    fetch_messages histServer 3 =
      (some [mkMsg "5.0", mkMsg "4.0", mkMsg "3.0", mkMsg "2.0", mkMsg "1.0"],
       [none, some "a", some "b"]) := by
  have h : Serves histServer none [histPage1, histPage2, histPage3] :=
    Serves.more _ _ _ (by decide) (by decide) (by decide)
      (Serves.more _ _ _ (by decide) (by decide) (by decide)
        (Serves.last _ _ (by decide) (by decide)))
  simpa [histPage1, histPage2, histPage3] using
    fetch_messages_concatenates_pages histServer _ 3 h (by decide)

theorem repliesScan_no_match (thread_ts : String) :
    ∀ (ms acc : List Message), (∀ m ∈ ms, m.ts ≠ thread_ts) →
    repliesScan thread_ts acc ms = (acc ++ ms, false) := by
  intro ms
  induction ms with
  | nil => intro acc _; simp [repliesScan]
  | cons m rest ih =>
    intro acc h
    have hm : ¬(m.ts = thread_ts ∧ acc.length > 0) :=
      fun hc => h m (by simp) hc.1
    rw [repliesScan, if_neg hm, ih _ (fun x hx => h x (by simp [hx]))]
    simp

/-- C1: the claim is false of the code.  On a page-exhaustion run in
which no response ever contains a message timestamped with the thread
root, and the response declares has_more false, fetch_replies does not
stop: the source has no else-break, so the loop re-issues the same
request instead of returning, and exhausts any amount of fuel. -/
theorem fetch_replies_no_stop_on_has_more_false (server : Server)
    (thread_ts : String)
    (h : ∀ c, (server c).has_more = false ∧
      ∀ m ∈ (server c).messages, m.ts ≠ thread_ts) :
    ∀ fuel (replies : List Message) (c : Option String)
      (trace : List (Option String)),
    (fetchRepliesLoop server thread_ts fuel replies c trace).1 = none := by
  intro fuel
  induction fuel with
  | zero => intro replies c trace; rfl
  | succ fuel ih =>
    intro replies c trace
    have hscan := repliesScan_no_match thread_ts
      (server (truthy c)).messages replies ((h (truthy c)).2)
    simp only [fetchRepliesLoop, hscan, (h (truthy c)).1]
    simpa using ih _ _ _

theorem fetch_replies_no_stop_on_has_more_false_witness :
    (fetchRepliesLoop stuckRepliesServer "1.0" 5 [] none []).1 = none :=
  fetch_replies_no_stop_on_has_more_false stuckRepliesServer "1.0"
    (fun c => ⟨rfl, fun m hm => by
      simp [stuckRepliesServer] at hm
      subst hm
      decide⟩) 5 [] none []

/-- C2: duplicate-boundary termination of fetch_replies: with a first
page [root, r1, r2] (the root timestamped T, the replies not) declaring
has_more with cursor c1, and a second page that starts with a message
timestamped T again, fetch_replies returns exactly [root, r1, r2]: the
root is appended while the accumulator is empty, the second occurrence
of T ends the fetch without being re-appended, and no page after the one
containing it is requested (the request trace is [none, some c1]). -/
theorem fetch_replies_duplicate_boundary (server : Server) (T c1 : String)
    (root m1 m2 root2 : Message) (rest2 : List Message)
    (hm2 : Bool) (nc2 : String)
    (hroot : root.ts = T) (h1 : m1.ts ≠ T) (h2 : m2.ts ≠ T)
    (hroot2 : root2.ts = T) (hc : c1 ≠ "")
    (hp1 : server none = ⟨[root, m1, m2], true, c1⟩)
    (hp2 : server (some c1) = ⟨root2 :: rest2, hm2, nc2⟩)
    (fuel : Nat) (hf : 2 ≤ fuel) :
    fetch_replies server T fuel = (some [root, m1, m2], [none, some c1]) := by
  match fuel, hf with
  | fuel + 2, _ =>
    simp [fetch_replies, fetchRepliesLoop, truthy, hp1, hp2, repliesScan,
      hroot, h1, h2, hroot2, hc]

theorem fetch_replies_duplicate_boundary_witness :
    fetch_replies dupServer "10.0" 2 =
      (some [mkMsg "10.0", mkMsg "10.1", mkMsg "10.2"], [none, some "c"]) :=
  fetch_replies_duplicate_boundary dupServer "10.0" "c"
    (mkMsg "10.0") (mkMsg "10.1") (mkMsg "10.2") (mkMsg "10.0")
    [mkMsg "10.2", mkMsg "10.3"] true "d"
    rfl (by decide) (by decide) rfl (by decide) rfl rfl 2 (by decide)

theorem expandLoop_total (f : String → List Message)
    (tr : String → List (Option String)) :
    ∀ (l acc : List Message) (calls : Nat),
    (expandLoop (fun t => (some (f t), tr t)) acc l calls).1 =
      some (acc ++ (l.map (fun m =>
        match truthy m.thread_ts with
        | none => [m]
        | some t => f t)).flatten) := by
  intro l
  induction l with
  | nil => intro acc calls; simp [expandLoop]
  | cons m rest ih =>
    intro acc calls
    cases hm : truthy m.thread_ts with
    | none => rw [expandLoop, hm]; rw [ih]; simp [hm]
    | some t => rw [expandLoop, hm]; rw [ih]; simp [hm]

/-- C4: thread flattening: when every reply fetch returns (the reply
list of thread t being f t), the per-channel collection is built from
the reversed (oldest-first) root-message list by appending each message
without a truthy thread_ts directly and replacing each threaded message
by the full list f returns for its thread, in that order. -/
theorem main_thread_flattening (f : String → List Message)
    (tr : String → List (Option String)) (messages : List Message) :
    (messagesAndReplies (fun t => (some (f t), tr t)) messages).1 =
      some ((messages.reverse.map (fun m =>
        match truthy m.thread_ts with
        | none => [m]
        | some t => f t)).flatten) := by
  simpa [messagesAndReplies] using expandLoop_total f tr messages.reverse [] 0

/-- C5 counterexample: a channel whose name field is present but equal
to the empty string is not exported under its own name: the source
tests Python truthiness, not presence, so resolution falls through to
the counterpart user. -/
theorem resolveName_present_empty_name_not_used :
    emptyNameChannel.name = some "" ∧
    resolveName (usersDict [aliceUser]) emptyNameChannel = Except.ok "alice" ∧
    (Except.ok "alice" : Except Err String) ≠ Except.ok "" :=
  ⟨rfl, rfl, fun h => absurd (Except.ok.inj h) (by decide)⟩

/-- C5 (amended): display-name resolution: the channel name is used when
present and non-empty; otherwise the name of the user the table holds at
the counterpart user id; when the name is not truthy and the counterpart
id is absent from the user table, or the channel has no counterpart
field at all, resolution is a lookup error. -/
theorem resolveName_cases (users : String → Option User)
    (channel : Channel) :
    (∀ n, channel.name = some n → n ≠ "" →
      resolveName users channel = Except.ok n) ∧
    (truthy channel.name = none →
      ∀ uid u, channel.user = some uid → users uid = some u →
        resolveName users channel = Except.ok u.name) ∧
    (truthy channel.name = none →
      ∀ uid, channel.user = some uid → users uid = none →
        resolveName users channel = Except.error Err.keyError) ∧
    (truthy channel.name = none → channel.user = none →
      resolveName users channel = Except.error Err.keyError) := by
  refine ⟨?_, ?_, ?_, ?_⟩
  · intro n hn hne
    simp [resolveName, truthy, hn, hne]
  · intro ht uid u hu hus
    simp [resolveName, ht, hu, hus]
  · intro ht uid hu hus
    simp [resolveName, ht, hu, hus]
  · intro ht hu
    simp [resolveName, ht, hu]

theorem resolveName_cases_witness :
    resolveName (usersDict [aliceUser]) generalChannel =
      Except.ok "general" ∧
    resolveName (usersDict [aliceUser]) imChannel = Except.ok "alice" ∧
    resolveName (usersDict [aliceUser]) missingUserChannel =
      Except.error Err.keyError ∧
    resolveName (usersDict [aliceUser]) noUserChannel =
      Except.error Err.keyError :=
  ⟨(resolveName_cases (usersDict [aliceUser]) generalChannel).1
      "general" rfl (by decide),
   (resolveName_cases (usersDict [aliceUser]) imChannel).2.1
      (by decide) "U1" aliceUser rfl (by decide),
   (resolveName_cases (usersDict [aliceUser]) missingUserChannel).2.2.1
      (by decide) "UX" rfl (by decide),
   (resolveName_cases (usersDict [aliceUser]) noUserChannel).2.2.2
      (by decide) rfl⟩

/-- C6: when the output directory already exists, the run fails with the
file-exists error before any network request is issued: the request
count is zero and nothing is written. -/
theorem main_existing_dir_fails_before_network (env : Env)
    (outDir fmt : String) (fuel : Nat) (h : env.dirExists = true) :
    mainRun env outDir fmt fuel = ([], Except.error Err.fileExists, 0) := by
  simp [mainRun, h]

theorem main_existing_dir_fails_before_network_witness :
    mainRun dirExistsEnv "out" "json" 3 =
      ([], Except.error Err.fileExists, 0) :=
  main_existing_dir_fails_before_network dirExistsEnv "out" "json" 3 rfl

/-- C7: fetch_users issues exactly one request to the list-users
endpoint, with no cursor parameter and no cursor-following even when the
response declares that more pages exist, and returns the members list of
that single response unchanged. -/
theorem fetch_users_single_request (server : Option String → UsersResponse)
    (_h : (server none).has_more = true) :
    (fetch_users server).1 = (server none).members ∧
    (fetch_users server).2 = [none] :=
  ⟨rfl, rfl⟩

theorem fetch_users_single_request_witness :
    (fetch_users moreUsersServer).1 = [aliceUser] ∧
    (fetch_users moreUsersServer).2 = [none] :=
  fetch_users_single_request moreUsersServer rfl

theorem sortItems_eq_of_perm (o1 o2 : List (String × JVal))
    (hperm : o1.Perm o2) (hnodup : (o1.map Prod.fst).Nodup) :
    sortItems o1 = sortItems o2 := by
  have hp1 : (sortItems o1).Perm o1 := List.perm_insertionSort itemLE o1
  have hp2 : (sortItems o2).Perm o2 := List.perm_insertionSort itemLE o2
  have hp : (sortItems o1).Perm (sortItems o2) :=
    hp1.trans (hperm.trans hp2.symm)
  have hs1 : List.Sorted itemLE (sortItems o1) :=
    List.sorted_insertionSort itemLE o1
  have hs2 : List.Sorted itemLE (sortItems o2) :=
    List.sorted_insertionSort itemLE o2
  have hn1 : ((sortItems o1).map Prod.fst).Nodup :=
    ((hp1.map Prod.fst).nodup_iff).mpr hnodup
  have hn2 : ((sortItems o2).map Prod.fst).Nodup :=
    ((hp2.map Prod.fst).nodup_iff).mpr
      (((hperm.map Prod.fst).nodup_iff).mp hnodup)
  have hlt1 : (sortItems o1).Pairwise itemLT :=
    (hs1.and (List.pairwise_map.mp hn1)).imp
      (fun h => lt_of_le_of_ne h.1 h.2)
  have hlt2 : (sortItems o2).Pairwise itemLT :=
    (hs2.and (List.pairwise_map.mp hn2)).imp
      (fun h => lt_of_le_of_ne h.1 h.2)
  exact List.eq_of_perm_of_sorted hp hlt1 hlt2

/-- C8: serialization determinism under key order: two message objects
with the same key-value content in any field insertion order (keys
unique, as in a Python dict) serialize to byte-identical output both in
compact (jsonl) mode and in indented (json) mode, at any indentation. -/
theorem serialization_key_order_invariant (o1 o2 : List (String × JVal))
    (hperm : o1.Perm o2) (hnodup : (o1.map Prod.fst).Nodup) :
    dumpCompact o1 = dumpCompact o2 ∧
    ∀ ind, dumpPretty ind o1 = dumpPretty ind o2 := by
  have hs := sortItems_eq_of_perm o1 o2 hperm hnodup
  exact ⟨by rw [dumpCompact, dumpCompact, hs],
         fun ind => by rw [dumpPretty, dumpPretty, hs]⟩

theorem serialization_key_order_invariant_witness :
    dumpCompact objBA = dumpCompact objAB ∧
    dumpPretty "    " objBA = dumpPretty "    " objAB := by
  have h := serialization_key_order_invariant objBA objAB
    (by decide) (by decide)
  exact ⟨h.1, h.2 "    "⟩

/-- C9: no partial-output cleanup: whenever the channel loop ends in an
error, the filesystem it leaves behind is exactly the one produced by
the successfully processed prefix of channels — the failing channel
aborts the run without removing or rewriting any file written for an
earlier channel. -/
theorem processChannels_no_cleanup (env : Env) (users : String → Option User)
    (outDir fmt : String) (fuel : Nat) (fs0 fs : Fs)
    (channels : List Channel) (n : Nat) (e : Err)
    (h : processChannels env users outDir fmt fuel fs0 channels =
      (fs, n, Except.error e)) :
    ∃ pre ch post k,
      channels = pre ++ ch :: post ∧
      processChannels env users outDir fmt fuel fs0 pre =
        (fs, k, Except.ok ()) ∧
      (processChannel env users outDir fmt fuel fs ch).2 =
        Except.error e := by
  induction channels generalizing fs0 fs n with
  | nil => simp [processChannels] at h
  | cons ch rest ih =>
    rw [processChannels] at h
    rcases hc : processChannel env users outDir fmt fuel fs0 ch with ⟨n0, r⟩
    cases r with
    | error e0 =>
      rw [hc] at h
      simp only [Prod.mk.injEq, Except.error.injEq] at h
      obtain ⟨rfl, _, rfl⟩ := h
      refine ⟨[], ch, rest, 0, rfl, by simp [processChannels], ?_⟩
      simp [hc]
    | ok fs2 =>
      rw [hc] at h
      dsimp only at h
      rcases hrec : processChannels env users outDir fmt fuel fs2 rest
        with ⟨fs3, m, r2⟩
      rw [hrec] at h
      dsimp only at h
      simp only [Prod.mk.injEq] at h
      obtain ⟨rfl, _, rfl⟩ := h
      obtain ⟨pre, chf, post, k, hsplit, hpre, hfail⟩ :=
        ih fs2 fs3 m hrec
      refine ⟨ch :: pre, chf, post, n0 + k, by simp [hsplit], ?_, hfail⟩
      rw [processChannels, hc]
      dsimp only
      rw [hpre]

theorem processChannels_no_cleanup_witness :
    ∃ pre ch post k,
      [generalChannel, missingUserChannel] = pre ++ ch :: post ∧
      processChannels failSecondEnv (usersDict [aliceUser]) "out" "jsonl" 1
        [] pre =
        ([("out/general.jsonl", serializeFile "jsonl" [mkMsg "1.0"])],
         k, Except.ok ()) ∧
      (processChannel failSecondEnv (usersDict [aliceUser]) "out" "jsonl" 1
        [("out/general.jsonl", serializeFile "jsonl" [mkMsg "1.0"])]
        ch).2 = Except.error Err.keyError :=
  processChannels_no_cleanup failSecondEnv (usersDict [aliceUser])
    "out" "jsonl" 1 []
    [("out/general.jsonl", serializeFile "jsonl" [mkMsg "1.0"])]
    [generalChannel, missingUserChannel] 1 Err.keyError (by decide)

/-- C10: duplicate display names collide onto one output file: when two
successive channels resolve to the same display name and their fetches
succeed, both exports write to the same path, and after the run the file
at that path holds the serialization of the messages of the later
channel — the export of the earlier one is silently shadowed. -/
theorem duplicate_names_collide (env : Env) (users : String → Option User)
    (outDir fmt : String) (fuel : Nat) (fs0 : Fs) (ch1 ch2 : Channel)
    (name : String) (msgs1 msgs2 flat1 flat2 : List Message)
    (t1 t2 : List (Option String)) (k1 k2 : Nat)
    (h1 : resolveName users ch1 = Except.ok name)
    (h2 : resolveName users ch2 = Except.ok name)
    (hm1 : fetch_messages (env.history ch1.id) fuel = (some msgs1, t1))
    (he1 : messagesAndReplies
      (fun t => fetch_replies (env.replies ch1.id t) t fuel) msgs1 =
      (some flat1, k1))
    (hm2 : fetch_messages (env.history ch2.id) fuel = (some msgs2, t2))
    (he2 : messagesAndReplies
      (fun t => fetch_replies (env.replies ch2.id t) t fuel) msgs2 =
      (some flat2, k2)) :
    (∃ n, processChannels env users outDir fmt fuel fs0 [ch1, ch2] =
      (fs0 ++ [(outputPath outDir name fmt, serializeFile fmt flat1),
               (outputPath outDir name fmt, serializeFile fmt flat2)],
       n, Except.ok ())) ∧
    fsRead (fs0 ++ [(outputPath outDir name fmt, serializeFile fmt flat1),
                    (outputPath outDir name fmt, serializeFile fmt flat2)])
      (outputPath outDir name fmt) = some (serializeFile fmt flat2) := by
  constructor
  · refine ⟨(t1.length + k1) + ((t2.length + k2) + 0), ?_⟩
    simp [processChannels, processChannel, h1, h2, hm1, he1, hm2, he2]
  · simp [fsRead]

theorem duplicate_names_collide_witness :
    (∃ n, processChannels collideEnv (usersDict [bobUser1, bobUser2])
      "out" "jsonl" 1 [] [collideCh1, collideCh2] =
      ([(outputPath "out" "bob" "jsonl",
         serializeFile "jsonl" [mkMsg "1.0"]),
        (outputPath "out" "bob" "jsonl",
         serializeFile "jsonl" [mkMsg "2.0"])],
       n, Except.ok ())) ∧
    fsRead [(outputPath "out" "bob" "jsonl",
             serializeFile "jsonl" [mkMsg "1.0"]),
            (outputPath "out" "bob" "jsonl",
             serializeFile "jsonl" [mkMsg "2.0"])]
      (outputPath "out" "bob" "jsonl") =
      some (serializeFile "jsonl" [mkMsg "2.0"]) := by
  have h := duplicate_names_collide collideEnv
    (usersDict [bobUser1, bobUser2]) "out" "jsonl" 1 []
    collideCh1 collideCh2 "bob"
    [mkMsg "1.0"] [mkMsg "2.0"] [mkMsg "1.0"] [mkMsg "2.0"]
    [none] [none] 0 0
    (by decide) (by decide) rfl rfl rfl rfl
  simpa using h

end SlackExport
